import Mathlib

/-!
Verification of the arpmonit core (Scheduler, Job Runner, Scanner Adapter,
Device Reconciler) against its natural-language specification.

The JavaScript source is shallowly embedded: each relevant function is
translated into an executable Lean definition over explicit state values.
Timestamps are naturals (database timestamps in seconds, scheduler
timestamps in milliseconds, matching JavaScript `Date.getTime()`); the
database tables touched by a run are explicit lists; SQL statements become
list operations (`INSERT` appends — with the `UNIQUE(job_id, mac_address)`
constraint of `known_devices` raising an error on a duplicate key —,
`UPDATE ... WHERE` maps over matching rows, `DELETE ... WHERE` filters).
Row ids produced by `uuidv4()` carry no information used by any claim and
are dropped from row structures (uniqueness of `known_devices` rows is by
`(job_id, mac_address)`, precisely the modelled constraint); run ids are
taken as parameters.  JavaScript string primitives used by the scanner
(`split`, `trim`, `toLowerCase` on ASCII data) are modelled structurally
over `String.data` so that every definition evaluates inside the kernel.
-/

namespace ArpMonit

/-! ## JavaScript string primitives (ASCII fragment used by the scanner) -/

/-- JS `String.prototype.split` with a single-character separator,
on the underlying character list. -/
def splitChar (sep : Char) : List Char → List (List Char)
  | [] => [[]]
  | c :: cs =>
    let rest := splitChar sep cs
    if c == sep then
      [] :: rest
    else
      match rest with
      | [] => [[c]]
      | r :: rs => (c :: r) :: rs

/-- JS `split` lifted to `String`. -/
def jsSplit (sep : Char) (s : String) : List String :=
  (splitChar sep s.data).map (fun cs => ⟨cs⟩)

/-- Whitespace characters relevant to the scanner's ASCII output. -/
def isWS (c : Char) : Bool :=
  c == ' ' || c == '\t' || c == '\n' || c == '\r'

/-- JS `String.prototype.trim` (restricted to ASCII whitespace, which is
all the external tool emits). -/
def jsTrim (s : String) : String :=
  ⟨((s.data.dropWhile isWS).reverse.dropWhile isWS).reverse⟩

/-- ASCII lower-casing of one character, as JS `toLowerCase` acts on the
characters that can appear in a scan line. -/
def charToLower (c : Char) : Char :=
  if 'A' ≤ c ∧ c ≤ 'Z' then Char.ofNat (c.toNat + 32) else c

/-- JS `String.prototype.toLowerCase` on ASCII data. -/
def strToLower (s : String) : String :=
  ⟨s.data.map charToLower⟩

/-! ## Scanner Adapter: `ArpScanner._parseOutput` and its validators -/

/-- One octet group of the IPv4 regex
`25[0-5]|2[0-4][0-9]|[01]?[0-9][0-9]?`. -/
def isOctet (s : String) : Bool :=
  match s.data with
  | [a] => a.isDigit
  | [a, b] => a.isDigit && b.isDigit
  | [a, b, c] =>
    ((a == '0' || a == '1') && b.isDigit && c.isDigit) ||
    (a == '2' && b == '5' && ('0' ≤ c && c ≤ '5')) ||
    (a == '2' && ('0' ≤ b && b ≤ '4') && c.isDigit)
  | _ => false

/-- `ArpScanner._isValidIP`: the anchored dotted-quad regex. -/
def isValidIP (s : String) : Bool :=
  match jsSplit '.' s with
  | [a, b, c, d] => isOctet a && isOctet b && isOctet c && isOctet d
  | _ => false

/-- Hex digit of the case-insensitive MAC regex. -/
def isHexChar (c : Char) : Bool :=
  ('0' ≤ c && c ≤ '9') || ('a' ≤ c && c ≤ 'f') || ('A' ≤ c && c ≤ 'F')

/-- Separator allowed by the MAC regex: colon or dash. -/
def isSepChar (c : Char) : Bool :=
  c == ':' || c == '-'

/-- `ArpScanner._isValidMAC`: the anchored regex
`([0-9a-f]{2}[:-]){5}([0-9a-f]{2})` with the `/i` flag. -/
def isValidMAC (s : String) : Bool :=
  match s.data with
  | [a1, a2, s1, b1, b2, s2, c1, c2, s3, d1, d2, s4, e1, e2, s5, f1, f2] =>
    isHexChar a1 && isHexChar a2 && isSepChar s1 &&
    isHexChar b1 && isHexChar b2 && isSepChar s2 &&
    isHexChar c1 && isHexChar c2 && isSepChar s3 &&
    isHexChar d1 && isHexChar d2 && isSepChar s4 &&
    isHexChar e1 && isHexChar e2 && isSepChar s5 &&
    isHexChar f1 && isHexChar f2
  | _ => false

/-- A device record produced by the scanner (`detected_at`, a wall-clock
ISO string never read by the reconciler, is omitted; `vendor` is absent
on every scanner-produced record, hence defaults to `none`). -/
structure Device where
  ip : String
  mac : String
  vendor : Option String := none
deriving DecidableEq, Repr

/-- One iteration of the line loop of `ArpScanner._parseOutput`. -/
def parseLine (line : String) : Option Device :=
  if jsTrim line == "" then none
  else
    match jsSplit '\t' line with
    | p0 :: p1 :: _ =>
      if isValidIP (jsTrim p0) && isValidMAC (strToLower (jsTrim p1)) then
        some { ip := jsTrim p0, mac := strToLower (jsTrim p1) }
      else none
    | _ => none

/-- `ArpScanner._parseOutput`. -/
def parseOutput (output : String) : List Device :=
  (jsSplit '\n' (jsTrim output)).filterMap parseLine

/-- Spec-side definition (for refinement comparison only): the spec's
"lower-case colon-separated form" — six two-hex-digit lower-case octets
joined by `:`. -/
def specColonSeparatedMAC (s : String) : Bool :=
  match s.data with
  | [a1, a2, s1, b1, b2, s2, c1, c2, s3, d1, d2, s4, e1, e2, s5, f1, f2] =>
    let lowHex := fun c => ('0' ≤ c && c ≤ '9') || ('a' ≤ c && c ≤ 'f')
    lowHex a1 && lowHex a2 && (s1 == ':') &&
    lowHex b1 && lowHex b2 && (s2 == ':') &&
    lowHex c1 && lowHex c2 && (s3 == ':') &&
    lowHex d1 && lowHex d2 && (s4 == ':') &&
    lowHex e1 && lowHex e2 && (s5 == ':') &&
    lowHex f1 && lowHex f2
  | _ => false

/-! ## Data model rows (database tables touched by a run)

`KnownDevice`, `Notification` and `HistoryEntry` model rows of
`known_devices`, `notifications` and `device_history` scoped to one job
(uuid primary keys dropped, see header).  `JobRow` is the `jobs` row with
the columns read by the runner and scheduler; `whitelist` rows live in a
separate table keyed by job id and are passed separately, matching the
`job_whitelist` query in `runJob`. -/

structure KnownDevice where
  mac_address : String
  ip_address : String
  vendor : Option String
  whitelisted : Bool
  first_seen : Nat
  last_seen : Nat
  status : String
deriving DecidableEq, Repr

structure Notification where
  job_id : String
  job_name : String
  ntype : String
  message : String
  mac_address : String
  ip_address : String
deriving DecidableEq, Repr

structure HistoryEntry where
  mac_address : String
  ip_address : String
  vendor : Option String
  detected_at : Nat
deriving DecidableEq, Repr

structure JobRow where
  id : String
  name : String
  status : String
  schedule : String
  next_run : Option Nat
  last_run : Option Nat
  notifications_enabled : Bool
  notify_new_macs : Bool
  notify_unauthorized_macs : Bool
  notify_ip_changes : Bool
  retention_policy : String
  retention_days : Nat
deriving DecidableEq, Repr

/-! ## Device Reconciler: `JobRunner._processDevices` -/

def newAuthorizedMsg (mac : String) : String :=
  "New authorized device discovered: " ++ mac

def unauthorizedMsg (mac : String) : String :=
  "Unauthorized device detected: " ++ mac

def ipChangedMsg (mac oldIp newIp : String) : String :=
  "Device " ++ mac ++ " changed IP from " ++ oldIp ++ " to " ++ newIp

/-- State threaded through the device loop of `_processDevices`:
`table` is the job's slice of the `known_devices` table in the database,
`working` the in-memory `knownDevices` map snapshot (entries are deleted
as devices are observed), plus the counters, emitted notifications and
appended history rows. -/
structure ProcState where
  table : List KnownDevice
  working : List KnownDevice
  newDevices : Nat
  warnings : Nat
  notifications : List Notification
  history : List HistoryEntry
deriving DecidableEq, Repr

/-- One iteration of the `for (const device of devices)` loop.  The
`INSERT INTO known_devices` in the new-device branch errors when a row
with the same `(job_id, mac_address)` already exists — the table's
`UNIQUE` constraint (the in-memory map is *not* updated on insert, so a
MAC inserted earlier in the same run is not found in `working`). -/
def processOne (job : JobRow) (whitelist : List String) (now : Nat)
    (st : ProcState) (d : Device) : Except String ProcState :=
  match st.working.find? (fun k => k.mac_address == d.mac) with
  | none =>
    if st.table.any (fun k => k.mac_address == d.mac) then
      Except.error "UNIQUE constraint failed: known_devices.job_id, known_devices.mac_address"
    else
      Except.ok { st with
        newDevices := st.newDevices + 1,
        table := st.table ++
          [⟨d.mac, d.ip, d.vendor, whitelist.contains d.mac, now, now, "active"⟩],
        warnings := st.warnings +
          (if job.notifications_enabled && !(whitelist.contains d.mac)
              && job.notify_unauthorized_macs
           then 1 else 0),
        notifications := st.notifications ++
          (if job.notifications_enabled then
            if whitelist.contains d.mac && job.notify_new_macs then
              [⟨job.id, job.name, "information", newAuthorizedMsg d.mac, d.mac, d.ip⟩]
            else if !(whitelist.contains d.mac) && job.notify_unauthorized_macs then
              [⟨job.id, job.name, "warning", unauthorizedMsg d.mac, d.mac, d.ip⟩]
            else []
           else []),
        history := st.history ++ [⟨d.mac, d.ip, d.vendor, now⟩] }
  | some existingDevice =>
    Except.ok { st with
      notifications := st.notifications ++
        (if !(existingDevice.ip_address == d.ip) && job.notifications_enabled
            && job.notify_ip_changes then
          [⟨job.id, job.name, "information",
            ipChangedMsg d.mac existingDevice.ip_address d.ip, d.mac, d.ip⟩]
         else []),
      table := st.table.map (fun k =>
        if k.mac_address == d.mac then
          { k with ip_address := d.ip, vendor := d.vendor,
                   last_seen := now, status := "active" }
        else k),
      working := st.working.filter (fun k => !(k.mac_address == d.mac)),
      history := st.history ++ [⟨d.mac, d.ip, d.vendor, now⟩] }

/-- The device loop itself. -/
def procLoop (job : JobRow) (whitelist : List String) (now : Nat) :
    List Device → ProcState → Except String ProcState
  | [], st => Except.ok st
  | d :: ds, st =>
    match processOne job whitelist now st d with
    | Except.error e => Except.error e
    | Except.ok st' => procLoop job whitelist now ds st'

/-- The `for (const [mac, device] of knownDevices)` loop marking every
MAC still in the working map as inactive. -/
def markInactive (working : List KnownDevice) (table : List KnownDevice) :
    List KnownDevice :=
  working.foldl (fun tbl k =>
    tbl.map (fun r =>
      if r.mac_address == k.mac_address then { r with status := "inactive" } else r))
    table

/-- `JobRunner._applyRetentionPolicy`, as the survival predicate of one
row: `forever` keeps everything, `remove` (presented as `immediate` in
the specification and as "Remove immediately" in the UI) deletes inactive
rows, `days` deletes inactive rows whose `last_seen` is more than
`retention_days` days (86400 s each) before now; any other value is a
no-op. -/
def retentionKeeps (job : JobRow) (now : Nat) (r : KnownDevice) : Bool :=
  if job.retention_policy == "forever" then true
  else if job.retention_policy == "remove" then !(r.status == "inactive")
  else if job.retention_policy == "days" then
    !(r.status == "inactive" && r.last_seen + job.retention_days * 86400 < now)
  else true

/-- The two `DELETE FROM known_devices` statements of
`_applyRetentionPolicy`. -/
def applyRetentionPolicy (job : JobRow) (now : Nat)
    (table : List KnownDevice) : List KnownDevice :=
  if job.retention_policy == "forever" then table
  else if job.retention_policy == "remove" then
    table.filter (fun r => !(r.status == "inactive"))
  else if job.retention_policy == "days" then
    table.filter (fun r =>
      !(r.status == "inactive" && r.last_seen + job.retention_days * 86400 < now))
  else table

/-- Result of `_processDevices`: final table for the job, notifications
and history rows written, and the run counters. -/
structure ProcResult where
  table : List KnownDevice
  notifications : List Notification
  history : List HistoryEntry
  devicesFound : Nat
  newDevices : Nat
  warnings : Nat
deriving DecidableEq, Repr

/-- Loop state at entry: the working map is loaded from the job's
`known_devices` rows. -/
def initState (known : List KnownDevice) : ProcState :=
  ⟨known, known, 0, 0, [], []⟩

/-- `JobRunner._processDevices`: device loop, then inactive marking, then
retention, then the counts `{devicesFound, newDevices, warnings}`.  On a
thrown error the partial database writes are not tracked (no claim below
reads them). -/
def processDevices (job : JobRow) (whitelist : List String) (now : Nat)
    (known : List KnownDevice) (devices : List Device) :
    Except String ProcResult :=
  match procLoop job whitelist now devices (initState known) with
  | Except.error e => Except.error e
  | Except.ok st =>
    Except.ok
      { table := applyRetentionPolicy job now (markInactive st.working st.table),
        notifications := st.notifications,
        history := st.history,
        devicesFound := devices.length,
        newDevices := st.newDevices,
        warnings := st.warnings }

/-! ## Job Runner: `JobRunner.runJob` and the in-flight set

The runner's visible state: the `runningJobs` in-flight set, the `jobs`
table, the `job_runs` table, the per-job `known_devices` slices, the
`job_whitelist` rows `(job_id, mac_address)`, the `notifications` table
and the `device_history` rows tagged with their job id. -/

structure RunRow where
  id : String
  job_id : String
  status : String
  devices_found : Nat
  new_devices : Nat
  warnings : Nat
  started_at : Nat
  finished_at : Option Nat
  duration : Option Nat
  error_message : Option String
deriving DecidableEq, Repr

structure RunnerState where
  runningJobs : List String
  jobs : List JobRow
  runs : List RunRow
  devTables : List (String × List KnownDevice)
  whitelistTable : List (String × String)
  notifTable : List Notification
  historyTable : List (String × HistoryEntry)
deriving DecidableEq, Repr

/-- `SELECT * FROM known_devices WHERE job_id = ?`, grouped form. -/
def getDevs (t : List (String × List KnownDevice)) (jobId : String) :
    List KnownDevice :=
  match t.find? (fun p => p.1 == jobId) with
  | some p => p.2
  | none => []

/-- Replace the `known_devices` slice of one job. -/
def setDevs (t : List (String × List KnownDevice)) (jobId : String)
    (rows : List KnownDevice) : List (String × List KnownDevice) :=
  if t.any (fun p => p.1 == jobId) then
    t.map (fun p => if p.1 == jobId then (jobId, rows) else p)
  else t ++ [(jobId, rows)]

/-- Entry phase of `runJob` after both initial checks have passed:
inserts the `job_runs` record with status `running`, flips the job row to
`running` stamping `last_run`, and registers the job id in the in-flight
map. -/
def runStart (st : RunnerState) (jobId runId : String) (now : Nat) :
    RunnerState :=
  { st with
    runs := st.runs ++ [⟨runId, jobId, "running", 0, 0, 0, now, none, none, none⟩],
    jobs := st.jobs.map (fun j =>
      if j.id == jobId then { j with status := "running", last_run := some now }
      else j),
    runningJobs := st.runningJobs ++ [jobId] }

/-- The `catch` block of `runJob` followed by the `finally`: run record
closed as `failed` with the error text, job status back to `active`, job
id removed from the in-flight map. -/
def finishFailure (st : RunnerState) (jobId runId errMsg : String) (now : Nat) :
    RunnerState :=
  { st with
    runs := st.runs.map (fun r =>
      if r.id == runId then
        { r with status := "failed", finished_at := some now,
                 error_message := some errMsg }
      else r),
    jobs := st.jobs.map (fun j =>
      if j.id == jobId then { j with status := "active" } else j),
    runningJobs := st.runningJobs.filter (fun x => !(x == jobId)) }

/-- The success tail of `runJob` followed by the `finally`: persists the
reconciliation result, closes the run as `completed` with duration and
counts, job status back to `active`, job id removed from the in-flight
map. -/
def finishSuccess (st : RunnerState) (jobId runId : String) (res : ProcResult)
    (now duration : Nat) : RunnerState :=
  { st with
    devTables := setDevs st.devTables jobId res.table,
    notifTable := st.notifTable ++ res.notifications,
    historyTable := st.historyTable ++ res.history.map (fun h => (jobId, h)),
    runs := st.runs.map (fun r =>
      if r.id == runId then
        { r with status := "completed", finished_at := some now,
                 duration := some duration,
                 devices_found := res.devicesFound,
                 new_devices := res.newDevices,
                 warnings := res.warnings }
      else r),
    jobs := st.jobs.map (fun j =>
      if j.id == jobId then { j with status := "active" } else j),
    runningJobs := st.runningJobs.filter (fun x => !(x == jobId)) }

/-- `JobRunner.runJob`.  The external ARP scan is the only I/O the call
performs, so its outcome (`Except`: device list or thrown scan error) is
a parameter; `runId` stands for the generated uuid, `now` for
`CURRENT_TIMESTAMP` and `duration` for the measured elapsed seconds.
Returns the state after the call terminates together with the thrown
error, if any (`none` = normal return). -/
def runJob (st : RunnerState) (jobId runId : String)
    (scanResult : Except String (List Device)) (now duration : Nat) :
    RunnerState × Option String :=
  if st.runningJobs.contains jobId then
    (st, some "Job is already running")
  else
    match st.jobs.find? (fun j => j.id == jobId && j.status == "active") with
    | none => (st, some "Job not found or inactive")
    | some job =>
      let whitelist :=
        (st.whitelistTable.filter (fun p => p.1 == jobId)).map (fun p => p.2)
      let st1 := runStart st jobId runId now
      match scanResult with
      | Except.error e => (finishFailure st1 jobId runId e now, some e)
      | Except.ok devices =>
        match processDevices job whitelist now (getDevs st1.devTables jobId) devices with
        | Except.error e => (finishFailure st1 jobId runId e now, some e)
        | Except.ok res => (finishSuccess st1 jobId runId res now duration, none)

/-- `JobRunner.isJobRunning`. -/
def isJobRunning (st : RunnerState) (jobId : String) : Bool :=
  st.runningJobs.contains jobId

/-! ## Scheduler: `JobScheduler.calculateNextRunTime` and
`JobScheduler.checkScheduledJobs`

Scheduler times are in milliseconds (`Date.getTime()`).  `24h` and `7d`
zero the time of day (`setHours(0,0,0,0)` after adding one resp. seven
days); days are modelled as UTC days, matching the scheduler's declared
UTC timezone. -/

def hourMs : Nat := 3600000

def dayMs : Nat := 86400000

/-- `JobScheduler.calculateNextRunTime`. -/
def calculateNextRunTime (schedule : String) (now : Nat) : Option Nat :=
  if schedule == "1h" then some (now + hourMs)
  else if schedule == "6h" then some (now + 6 * hourMs)
  else if schedule == "12h" then some (now + 12 * hourMs)
  else if schedule == "24h" then some ((now / dayMs + 1) * dayMs)
  else if schedule == "7d" then some ((now / dayMs + 7) * dayMs)
  else none

/-- `JobScheduler.updateNextRunTime`: persists the recomputed next-due
timestamp (no write when the schedule tag is unknown). -/
def updateNextRunTime (jobs : List JobRow) (jobId schedule : String)
    (now : Nat) : List JobRow :=
  match calculateNextRunTime schedule now with
  | none => jobs
  | some t =>
    jobs.map (fun j => if j.id == jobId then { j with next_run := some t } else j)

/-- The `WHERE` clause of the tick query: active, non-manual, next run
absent or due. -/
def isDue (now : Nat) (j : JobRow) : Bool :=
  j.status == "active" && !(j.schedule == "manual") &&
    (match j.next_run with
     | none => true
     | some t => t ≤ now)

/-- Loop body of the tick: skip in-flight jobs; recompute the next-due
timestamp only when the awaited dispatch returned normally. -/
def tickStep (running : List String) (runOk : String → Bool) (now : Nat)
    (acc : List JobRow) (job : JobRow) : List JobRow :=
  if running.contains job.id then acc
  else if runOk job.id then updateNextRunTime acc job.id job.schedule now
  else acc

/-- `JobScheduler.checkScheduledJobs`: one tick.  Selects the due jobs,
skips those already in flight, dispatches each remaining one and — only
when the awaited run did not throw — recomputes and persists its next-due
timestamp; a thrown dispatch error is logged and the loop continues.
`running` is the Job Runner's in-flight set and `runOk jobId` the outcome
of `await this.jobRunner.runJob(jobId)` (`true` = no throw). -/
def checkScheduledJobs (jobs : List JobRow) (running : List String)
    (runOk : String → Bool) (now : Nat) : List JobRow :=
  (jobs.filter (isDue now)).foldl (tickStep running runOk now) jobs

/-- The spec-side dispatch condition of one tick for one job: due, not
in flight, and the dispatched run returned normally. -/
def dispatched (running : List String) (runOk : String → Bool) (now : Nat)
    (j : JobRow) : Prop :=
  isDue now j = true ∧ running.contains j.id = false ∧ runOk j.id = true

instance (running : List String) (runOk : String → Bool) (now : Nat)
    (j : JobRow) : Decidable (dispatched running runOk now j) := by
  unfold dispatched
  infer_instance

/-! ## Concrete fixtures used by counterexamples and witnesses -/

def specJob : JobRow :=
  ⟨"job-1", "lan", "active", "manual", none, none, true, true, true, true,
    "forever", 30⟩

def jobRemove : JobRow :=
  { specJob with retention_policy := "remove" }

def schedJob : JobRow :=
  ⟨"job-2", "wan", "active", "24h", none, none, true, true, true, true,
    "days", 30⟩

def dWhitelisted : Device := ⟨"192.168.1.10", "aa:bb:cc:dd:ee:ff", none⟩

def dOther : Device := ⟨"192.168.1.11", "11:22:33:44:55:66", none⟩

def runnerSt : RunnerState := ⟨[], [specJob], [], [], [], [], []⟩

/-! ## Lower-casing lemmas -/

theorem toNat_ofNat_valid {n : Nat} (h : n.isValidChar) : (Char.ofNat n).toNat = n := by
  simp [Char.ofNat, dif_pos h, Char.ofNatAux, Char.toNat, UInt32.toNat, BitVec.toNat_ofNatLt]

theorem charToLower_not_upper (c : Char) : ¬('A' ≤ charToLower c ∧ charToLower c ≤ 'Z') := by
  unfold charToLower
  split
  · next h =>
    have h1 : 65 ≤ c.toNat := h.1
    have h2 : c.toNat ≤ 90 := h.2
    have hv : (c.toNat + 32).isValidChar := Or.inl (by omega)
    have ht := toNat_ofNat_valid hv
    rintro ⟨ha, hb⟩
    have ha' : ('A' : Char).toNat ≤ (Char.ofNat (c.toNat + 32)).toNat := ha
    have hb' : (Char.ofNat (c.toNat + 32)).toNat ≤ ('Z' : Char).toNat := hb
    have hA : ('A' : Char).toNat = 65 := rfl
    have hZ : ('Z' : Char).toNat = 90 := rfl
    omega
  · next h => exact h

theorem charToLower_of_not_upper (c : Char) (h : ¬('A' ≤ c ∧ c ≤ 'Z')) :
    charToLower c = c := by
  unfold charToLower
  exact if_neg h

theorem charToLower_fix (c : Char) : charToLower (charToLower c) = charToLower c :=
  charToLower_of_not_upper _ (charToLower_not_upper c)

theorem strToLower_fix (s : String) : strToLower (strToLower s) = strToLower s := by
  simp [strToLower, List.map_map, Function.comp_def, charToLower_fix]

/-! ## C4 -/

/-- C4 counterexample: the claim says every accepted MAC is returned in
lower-case **colon-separated** form even when the raw line used dash
separators.  On the code, a dash-separated upper-case raw line is accepted
and returned lower-cased but still dash-separated. -/
theorem parse_dash_counterexample :
    parseOutput "192.168.1.10\tAA-BB-CC-DD-EE-FF" =
      [{ ip := "192.168.1.10", mac := "aa-bb-cc-dd-ee-ff" }] ∧
    specColonSeparatedMAC "aa-bb-cc-dd-ee-ff" = false := by
  constructor
  · decide
  · decide

/-- C4 amended: every device the Scanner Adapter returns has a valid
dotted-quad IP and a MAC that is the lower-casing of the raw field — it
matches the colon-or-dash six-octet pattern and is a fixed point of
lower-casing — but separators are preserved as written (dash-separated
input stays dash-separated); invalid lines never contribute a device. -/
theorem parseOutput_lowercase_valid (output : String) (d : Device)
    (hd : d ∈ parseOutput output) :
    isValidIP d.ip = true ∧ isValidMAC d.mac = true ∧
      strToLower d.mac = d.mac ∧ d.vendor = none := by
  unfold parseOutput at hd
  rcases List.mem_filterMap.mp hd with ⟨line, _, hline⟩
  unfold parseLine at hline
  split at hline
  · exact absurd hline (by simp)
  · split at hline
    · next p0 p1 rest heq =>
      split at hline
      · next hvalid =>
        injection hline with h
        subst h
        rcases Bool.and_eq_true .. ▸ hvalid with ⟨hip, hmac⟩
        exact ⟨hip, hmac, strToLower_fix _, rfl⟩
      · exact absurd hline (by simp)
    · exact absurd hline (by simp)

/-! ## Reconciler loop invariants: single step -/

theorem processOne_table_row {job : JobRow} {w : List String} {now : Nat}
    {st st' : ProcState} {d : Device} {r : KnownDevice}
    (h : processOne job w now st d = Except.ok st')
    (hr : r ∈ st.table) (hne : r.mac_address ≠ d.mac) : r ∈ st'.table := by
  unfold processOne at h
  split at h
  · split at h
    · exact absurd h (by simp)
    · injection h with h
      subst h
      exact List.mem_append_left _ hr
  · injection h with h
    subst h
    refine List.mem_map.mpr ⟨r, hr, ?_⟩
    simp [hne]

theorem processOne_working_row {job : JobRow} {w : List String} {now : Nat}
    {st st' : ProcState} {d : Device} {r : KnownDevice}
    (h : processOne job w now st d = Except.ok st')
    (hr : r ∈ st.working) (hne : r.mac_address ≠ d.mac) : r ∈ st'.working := by
  unfold processOne at h
  split at h
  · split at h
    · exact absurd h (by simp)
    · injection h with h
      subst h
      exact hr
  · injection h with h
    subst h
    exact List.mem_filter.mpr ⟨hr, by simp [hne]⟩

theorem processOne_not_in_working {job : JobRow} {w : List String} {now : Nat}
    {st st' : ProcState} {d : Device} {m : String}
    (h : processOne job w now st d = Except.ok st')
    (hm : ∀ k ∈ st.working, k.mac_address ≠ m) :
    ∀ k ∈ st'.working, k.mac_address ≠ m := by
  unfold processOne at h
  split at h
  · split at h
    · exact absurd h (by simp)
    · injection h with h
      subst h
      exact hm
  · injection h with h
    subst h
    intro k hk
    exact hm k (List.mem_filter.mp hk).1

theorem processOne_in_table {job : JobRow} {w : List String} {now : Nat}
    {st st' : ProcState} {d : Device} {m : String}
    (h : processOne job w now st d = Except.ok st')
    (hm : ∃ k ∈ st.table, k.mac_address = m) :
    ∃ k ∈ st'.table, k.mac_address = m := by
  obtain ⟨k, hk, hkm⟩ := hm
  unfold processOne at h
  split at h
  · split at h
    · exact absurd h (by simp)
    · injection h with h
      subst h
      exact ⟨k, List.mem_append_left _ hk, hkm⟩
  · injection h with h
    subst h
    subst hkm
    refine ⟨_, List.mem_map.mpr ⟨k, hk, rfl⟩, ?_⟩
    by_cases hkd : k.mac_address = d.mac <;> simp [hkd]

theorem processOne_sub {job : JobRow} {w : List String} {now : Nat}
    {st st' : ProcState} {d : Device}
    (h : processOne job w now st d = Except.ok st')
    (hsub : ∀ k ∈ st.working, k ∈ st.table) :
    ∀ k ∈ st'.working, k ∈ st'.table := by
  unfold processOne at h
  split at h
  · split at h
    · exact absurd h (by simp)
    · injection h with h
      subst h
      exact fun k hk => List.mem_append_left _ (hsub k hk)
  · injection h with h
    subst h
    intro k hk
    obtain ⟨hkw, hkd⟩ := List.mem_filter.mp hk
    refine List.mem_map.mpr ⟨k, hsub k hkw, ?_⟩
    simp only [Bool.not_eq_true'] at hkd
    simp [hkd]

theorem processOne_post {job : JobRow} {w : List String} {now : Nat}
    {st st' : ProcState} {d : Device}
    (h : processOne job w now st d = Except.ok st')
    (hsub : ∀ k ∈ st.working, k ∈ st.table) :
    (∀ k ∈ st'.working, k.mac_address ≠ d.mac) ∧
      (∃ k ∈ st'.table, k.mac_address = d.mac) := by
  unfold processOne at h
  split at h
  · next hf =>
    split at h
    · exact absurd h (by simp)
    · injection h with h
      subst h
      constructor
      · intro k hk
        have := List.find?_eq_none.mp hf k hk
        simpa using this
      · exact ⟨_, List.mem_append_right _ (List.mem_singleton.mpr rfl), rfl⟩
  · next ex hf =>
    injection h with h
    subst h
    constructor
    · intro k hk
      have := (List.mem_filter.mp hk).2
      simpa using this
    · have hexw : ex ∈ st.working := List.mem_of_find?_eq_some hf
      have hexm : ex.mac_address = d.mac := by
        have := List.find?_some hf
        simpa using this
      refine ⟨_, List.mem_map.mpr ⟨ex, hsub ex hexw, rfl⟩, ?_⟩
      simp [hexm]

theorem processOne_dup_error (job : JobRow) (w : List String) (now : Nat)
    {st : ProcState} {d : Device}
    (hw : ∀ k ∈ st.working, k.mac_address ≠ d.mac)
    (ht : ∃ k ∈ st.table, k.mac_address = d.mac) :
    processOne job w now st d =
      Except.error "UNIQUE constraint failed: known_devices.job_id, known_devices.mac_address" := by
  have hfind : st.working.find? (fun k => k.mac_address == d.mac) = none :=
    List.find?_eq_none.mpr (fun k hk => by simp [hw k hk])
  have hany : st.table.any (fun k => k.mac_address == d.mac) = true := by
    obtain ⟨k, hk, hkm⟩ := ht
    exact List.any_eq_true.mpr ⟨k, hk, by simp [hkm]⟩
  simp [processOne, hfind, hany]

theorem processOne_notifs {job : JobRow} {w : List String} {now : Nat}
    {st st' : ProcState} {d : Device}
    (h : processOne job w now st d = Except.ok st') :
    ∀ n ∈ st'.notifications, n ∈ st.notifications ∨ n.mac_address = d.mac := by
  unfold processOne at h
  split at h
  · split at h
    · exact absurd h (by simp)
    · injection h with h
      subst h
      intro n hn
      rcases List.mem_append.mp hn with hn | hn
      · exact Or.inl hn
      · right
        split at hn
        · split at hn
          · rcases List.mem_singleton.mp hn with rfl
            rfl
          · split at hn
            · rcases List.mem_singleton.mp hn with rfl
              rfl
            · exact absurd hn (by simp)
        · exact absurd hn (by simp)
  · injection h with h
    subst h
    intro n hn
    rcases List.mem_append.mp hn with hn | hn
    · exact Or.inl hn
    · right
      split at hn
      · rcases List.mem_singleton.mp hn with rfl
        rfl
      · exact absurd hn (by simp)

theorem processOne_table_nodup {job : JobRow} {w : List String} {now : Nat}
    {st st' : ProcState} {d : Device}
    (h : processOne job w now st d = Except.ok st')
    (hnd : (st.table.map (fun k => k.mac_address)).Nodup) :
    (st'.table.map (fun k => k.mac_address)).Nodup := by
  unfold processOne at h
  split at h
  · split at h
    · exact absurd h (by simp)
    · next hany =>
      injection h with h
      subst h
      simp only [List.map_append, List.map_cons, List.map_nil]
      rw [List.nodup_append]
      refine ⟨hnd, List.nodup_singleton _, ?_⟩
      intro m hm hm'
      rcases List.mem_singleton.mp hm' with rfl
      obtain ⟨k, hk, hkm⟩ := List.mem_map.mp hm
      exact hany (List.any_eq_true.mpr ⟨k, hk, by simp [hkm]⟩)
  · injection h with h
    subst h
    have : (st.table.map (fun k =>
        if k.mac_address == d.mac then
          { k with ip_address := d.ip, vendor := d.vendor,
                   last_seen := now, status := "active" }
        else k)).map (fun k => k.mac_address) =
        st.table.map (fun k => k.mac_address) := by
      rw [List.map_map]
      apply List.map_congr_left
      intro k _
      by_cases hkd : k.mac_address = d.mac <;> simp [hkd]
    rw [this]
    exact hnd

theorem processOne_working_nodup {job : JobRow} {w : List String} {now : Nat}
    {st st' : ProcState} {d : Device}
    (h : processOne job w now st d = Except.ok st')
    (hnd : (st.working.map (fun k => k.mac_address)).Nodup) :
    (st'.working.map (fun k => k.mac_address)).Nodup := by
  unfold processOne at h
  split at h
  · split at h
    · exact absurd h (by simp)
    · injection h with h
      subst h
      exact hnd
  · injection h with h
    subst h
    exact hnd.sublist (List.Sublist.map _ (List.filter_sublist _))

/-- The inactive-marking fold is the pointwise map that flips the status
of every row whose MAC is still in the working map. -/
theorem markInactive_eq (ws table : List KnownDevice) :
    markInactive ws table = table.map (fun r =>
      if ws.any (fun k => k.mac_address == r.mac_address) then
        { r with status := "inactive" }
      else r) := by
  induction ws generalizing table with
  | nil => simp [markInactive]
  | cons wHead wTail ih =>
    have hstep : markInactive (wHead :: wTail) table =
        markInactive wTail (table.map (fun r =>
          if r.mac_address == wHead.mac_address then { r with status := "inactive" }
          else r)) := by
      simp [markInactive]
    rw [hstep, ih, List.map_map]
    apply List.map_congr_left
    intro r _
    by_cases h1 : r.mac_address = wHead.mac_address
    · simp [Function.comp_def, h1]
    · have h1' : ¬wHead.mac_address = r.mac_address := fun hh => h1 hh.symm
      simp [Function.comp_def, h1, h1']

theorem markInactive_mem_unseen {ws table : List KnownDevice} {r : KnownDevice}
    (hr : r ∈ table) (hm : ∀ k ∈ ws, k.mac_address ≠ r.mac_address) :
    r ∈ markInactive ws table := by
  rw [markInactive_eq]
  refine List.mem_map.mpr ⟨r, hr, ?_⟩
  have : ws.any (fun k => k.mac_address == r.mac_address) = false := by
    rw [List.any_eq_false]
    intro k hk
    simp [hm k hk]
  simp [this]

theorem markInactive_mem_seen {ws table : List KnownDevice} {r : KnownDevice}
    (hr : r ∈ table) (hm : ∃ k ∈ ws, k.mac_address = r.mac_address) :
    { r with status := "inactive" } ∈ markInactive ws table := by
  rw [markInactive_eq]
  refine List.mem_map.mpr ⟨r, hr, ?_⟩
  obtain ⟨k, hk, hkm⟩ := hm
  have : ws.any (fun k => k.mac_address == r.mac_address) = true :=
    List.any_eq_true.mpr ⟨k, hk, by simp [hkm]⟩
  simp [this]

theorem markInactive_macs (ws table : List KnownDevice) :
    (markInactive ws table).map (fun k => k.mac_address) =
      table.map (fun k => k.mac_address) := by
  rw [markInactive_eq, List.map_map]
  apply List.map_congr_left
  intro r _
  simp only [Function.comp_def]
  split <;> rfl

/-- Retention as the row-wise survival filter. -/
theorem applyRetentionPolicy_eq_filter (job : JobRow) (now : Nat)
    (table : List KnownDevice) :
    applyRetentionPolicy job now table = table.filter (retentionKeeps job now) := by
  unfold applyRetentionPolicy retentionKeeps
  split
  · simp
  · split
    · rfl
    · split
      · rfl
      · simp

/-- Rows that are not inactive always survive retention. -/
theorem retentionKeeps_of_not_inactive {job : JobRow} {now : Nat}
    {r : KnownDevice} (h : r.status ≠ "inactive") :
    retentionKeeps job now r = true := by
  unfold retentionKeeps
  split
  · rfl
  · split
    · simp [h]
    · split
      · simp [h]
      · rfl

/-! ## Reconciler loop invariants: whole loop -/

theorem procLoop_cons_ok {job : JobRow} {w : List String} {now : Nat}
    {d : Device} {ds : List Device} {st st' : ProcState}
    (h : procLoop job w now (d :: ds) st = Except.ok st') :
    ∃ st1, processOne job w now st d = Except.ok st1 ∧
      procLoop job w now ds st1 = Except.ok st' := by
  unfold procLoop at h
  cases hp : processOne job w now st d with
  | error e =>
    rw [hp] at h
    exact Except.noConfusion h
  | ok st1 =>
    rw [hp] at h
    exact ⟨st1, rfl, h⟩

theorem procLoop_nil_ok {job : JobRow} {w : List String} {now : Nat}
    {st st' : ProcState} (h : procLoop job w now [] st = Except.ok st') :
    st' = st := by
  unfold procLoop at h
  injection h with h
  exact h.symm

theorem procLoop_table_row {job : JobRow} {w : List String} {now : Nat} :
    ∀ {ds : List Device} {st st' : ProcState} {r : KnownDevice},
    procLoop job w now ds st = Except.ok st' → r ∈ st.table →
    (∀ d ∈ ds, d.mac ≠ r.mac_address) → r ∈ st'.table := by
  intro ds
  induction ds with
  | nil => intro st st' r h hr _; rw [procLoop_nil_ok h]; exact hr
  | cons d ds ih =>
    intro st st' r h hr hne
    obtain ⟨st1, hp, h'⟩ := procLoop_cons_ok h
    exact ih h'
      (processOne_table_row hp hr (fun hh => hne d (List.mem_cons_self d ds) hh.symm))
      (fun d' hd' => hne d' (List.mem_cons_of_mem d hd'))

theorem procLoop_working_row {job : JobRow} {w : List String} {now : Nat} :
    ∀ {ds : List Device} {st st' : ProcState} {r : KnownDevice},
    procLoop job w now ds st = Except.ok st' → r ∈ st.working →
    (∀ d ∈ ds, d.mac ≠ r.mac_address) → r ∈ st'.working := by
  intro ds
  induction ds with
  | nil => intro st st' r h hr _; rw [procLoop_nil_ok h]; exact hr
  | cons d ds ih =>
    intro st st' r h hr hne
    obtain ⟨st1, hp, h'⟩ := procLoop_cons_ok h
    exact ih h'
      (processOne_working_row hp hr (fun hh => hne d (List.mem_cons_self d ds) hh.symm))
      (fun d' hd' => hne d' (List.mem_cons_of_mem d hd'))

theorem procLoop_not_in_working {job : JobRow} {w : List String} {now : Nat}
    {m : String} :
    ∀ {ds : List Device} {st st' : ProcState},
    procLoop job w now ds st = Except.ok st' →
    (∀ k ∈ st.working, k.mac_address ≠ m) →
    ∀ k ∈ st'.working, k.mac_address ≠ m := by
  intro ds
  induction ds with
  | nil => intro st st' h hm; rw [procLoop_nil_ok h]; exact hm
  | cons d ds ih =>
    intro st st' h hm
    obtain ⟨st1, hp, h'⟩ := procLoop_cons_ok h
    exact ih h' (processOne_not_in_working hp hm)

theorem procLoop_sub {job : JobRow} {w : List String} {now : Nat} :
    ∀ {ds : List Device} {st st' : ProcState},
    procLoop job w now ds st = Except.ok st' →
    (∀ k ∈ st.working, k ∈ st.table) →
    ∀ k ∈ st'.working, k ∈ st'.table := by
  intro ds
  induction ds with
  | nil => intro st st' h hm; rw [procLoop_nil_ok h]; exact hm
  | cons d ds ih =>
    intro st st' h hm
    obtain ⟨st1, hp, h'⟩ := procLoop_cons_ok h
    exact ih h' (processOne_sub hp hm)

theorem procLoop_notifs {job : JobRow} {w : List String} {now : Nat} :
    ∀ {ds : List Device} {st st' : ProcState},
    procLoop job w now ds st = Except.ok st' →
    ∀ n ∈ st'.notifications, n ∈ st.notifications ∨ ∃ d ∈ ds, n.mac_address = d.mac := by
  intro ds
  induction ds with
  | nil =>
    intro st st' h n hn
    rw [procLoop_nil_ok h] at hn
    exact Or.inl hn
  | cons d ds ih =>
    intro st st' h n hn
    obtain ⟨st1, hp, h'⟩ := procLoop_cons_ok h
    rcases ih h' n hn with hn1 | ⟨d', hd', hd'm⟩
    · rcases processOne_notifs hp n hn1 with hn0 | hnd
      · exact Or.inl hn0
      · exact Or.inr ⟨d, List.mem_cons_self d ds, hnd⟩
    · exact Or.inr ⟨d', List.mem_cons_of_mem d hd', hd'm⟩

theorem procLoop_table_nodup {job : JobRow} {w : List String} {now : Nat} :
    ∀ {ds : List Device} {st st' : ProcState},
    procLoop job w now ds st = Except.ok st' →
    (st.table.map (fun k => k.mac_address)).Nodup →
    (st'.table.map (fun k => k.mac_address)).Nodup := by
  intro ds
  induction ds with
  | nil => intro st st' h hm; rw [procLoop_nil_ok h]; exact hm
  | cons d ds ih =>
    intro st st' h hm
    obtain ⟨st1, hp, h'⟩ := procLoop_cons_ok h
    exact ih h' (processOne_table_nodup hp hm)

theorem procLoop_working_nodup {job : JobRow} {w : List String} {now : Nat} :
    ∀ {ds : List Device} {st st' : ProcState},
    procLoop job w now ds st = Except.ok st' →
    (st.working.map (fun k => k.mac_address)).Nodup →
    (st'.working.map (fun k => k.mac_address)).Nodup := by
  intro ds
  induction ds with
  | nil => intro st st' h hm; rw [procLoop_nil_ok h]; exact hm
  | cons d ds ih =>
    intro st st' h hm
    obtain ⟨st1, hp, h'⟩ := procLoop_cons_ok h
    exact ih h' (processOne_working_nodup hp hm)

theorem procLoop_dup_error {job : JobRow} {w : List String} {now : Nat}
    {m : String} :
    ∀ {ds : List Device} {st : ProcState},
    (∀ k ∈ st.working, k.mac_address ≠ m) →
    (∃ k ∈ st.table, k.mac_address = m) →
    (∃ d ∈ ds, d.mac = m) →
    ∃ e, procLoop job w now ds st = Except.error e := by
  intro ds
  induction ds with
  | nil => intro st _ _ hd; simp at hd
  | cons d ds ih =>
    intro st hw ht hd
    by_cases hdm : d.mac = m
    · subst hdm
      have herr := processOne_dup_error job w now hw ht
      exact ⟨"UNIQUE constraint failed: known_devices.job_id, known_devices.mac_address",
        by simp [procLoop, herr]⟩
    · obtain ⟨d0, hd0, hd0m⟩ := hd
      have hd0' : d0 ∈ ds := by
        rcases List.mem_cons.mp hd0 with rfl | hh
        · exact absurd hd0m hdm
        · exact hh
      cases hp : processOne job w now st d with
      | error e => exact ⟨e, by simp [procLoop, hp]⟩
      | ok st1 =>
        obtain ⟨e, he⟩ := ih (processOne_not_in_working hp hw)
          (processOne_in_table hp ht) ⟨d0, hd0', hd0m⟩
        exact ⟨e, by simp [procLoop, hp, he]⟩

theorem procLoop_ok_nodup {job : JobRow} {w : List String} {now : Nat} :
    ∀ {ds : List Device} {st st' : ProcState},
    procLoop job w now ds st = Except.ok st' →
    (∀ k ∈ st.working, k ∈ st.table) →
    (ds.map Device.mac).Nodup := by
  intro ds
  induction ds with
  | nil => intro st st' _ _; simp
  | cons d ds ih =>
    intro st st' h hsub
    obtain ⟨st1, hp, h'⟩ := procLoop_cons_ok h
    have hsub1 := processOne_sub hp hsub
    have hnd := ih h' hsub1
    simp only [List.map_cons, List.nodup_cons]
    refine ⟨?_, hnd⟩
    intro hmem
    obtain ⟨d0, hd0, hd0m⟩ := List.mem_map.mp hmem
    have hpost := processOne_post hp hsub
    obtain ⟨e, he⟩ := procLoop_dup_error (m := d.mac) hpost.1 hpost.2
      ⟨d0, hd0, hd0m⟩
    rw [he] at h'
    exact Except.noConfusion h'

/-! ## Reconciler loop: composite lemmas -/

/-- After a successful step, the processed device has a matching active
row with its IP in the table. -/
theorem processOne_self_row {job : JobRow} {w : List String} {now : Nat}
    {st st' : ProcState} {d : Device}
    (h : processOne job w now st d = Except.ok st')
    (hsub : ∀ k ∈ st.working, k ∈ st.table) :
    ∃ row ∈ st'.table, row.mac_address = d.mac ∧ row.ip_address = d.ip ∧
      row.status = "active" := by
  unfold processOne at h
  split at h
  · split at h
    · exact absurd h (by simp)
    · injection h with h
      subst h
      exact ⟨_, List.mem_append_right _ (List.mem_singleton.mpr rfl), rfl, rfl, rfl⟩
  · next ex hf =>
    injection h with h
    subst h
    have hexw : ex ∈ st.working := List.mem_of_find?_eq_some hf
    have hexm : ex.mac_address = d.mac := by
      have := List.find?_some hf
      simpa using this
    refine ⟨_, List.mem_map.mpr ⟨ex, hsub ex hexw, rfl⟩, ?_⟩
    simp [hexm]

/-- After a successful step on a device whose MAC is already in the
working map (hence in the table), the table row with that MAC is exactly
the old row with IP, vendor, last-seen and status overwritten. -/
theorem processOne_update_exact {job : JobRow} {w : List String} {now : Nat}
    {st st' : ProcState} {d : Device} {k : KnownDevice}
    (h : processOne job w now st d = Except.ok st')
    (hkw : k ∈ st.working) (hkt : k ∈ st.table)
    (hmac : k.mac_address = d.mac) :
    { k with ip_address := d.ip, vendor := d.vendor,
             last_seen := now, status := "active" } ∈ st'.table := by
  unfold processOne at h
  split at h
  · next hf =>
    have := List.find?_eq_none.mp hf k hkw
    simp [hmac] at this
  · injection h with h
    subst h
    refine List.mem_map.mpr ⟨k, hkt, ?_⟩
    simp [hmac]

/-- Every device processed by a successful loop run with duplicate-free
MACs ends with an active table row carrying its IP, and its MAC is no
longer in the working map. -/
theorem procLoop_all_seen {job : JobRow} {w : List String} {now : Nat} :
    ∀ {ds : List Device} {st st' : ProcState} {d : Device},
    procLoop job w now ds st = Except.ok st' →
    (∀ k ∈ st.working, k ∈ st.table) →
    (ds.map Device.mac).Nodup → d ∈ ds →
    (∃ row ∈ st'.table, row.mac_address = d.mac ∧ row.ip_address = d.ip ∧
        row.status = "active") ∧
      (∀ k ∈ st'.working, k.mac_address ≠ d.mac) := by
  intro ds
  induction ds with
  | nil => intro st st' d _ _ _ hd; simp at hd
  | cons d0 ds ih =>
    intro st st' d h hsub hnd hd
    obtain ⟨st1, hp, h'⟩ := procLoop_cons_ok h
    simp only [List.map_cons, List.nodup_cons] at hnd
    rcases List.mem_cons.mp hd with rfl | hd'
    · have hpost := processOne_post hp hsub
      have htail : ∀ d' ∈ ds, d'.mac ≠ d.mac := by
        intro d' hd' hh
        exact hnd.1 (List.mem_map.mpr ⟨d', hd', hh⟩)
      obtain ⟨row, hrow, hrmac, hrip, hrst⟩ := processOne_self_row hp hsub
      refine ⟨⟨row, ?_, hrmac, hrip, hrst⟩, ?_⟩
      · exact procLoop_table_row h' hrow (fun d' hd' hh => htail d' hd' (hh.trans hrmac))
      · exact procLoop_not_in_working h' hpost.1
    · exact ih h' (processOne_sub hp hsub) hnd.2 hd'

/-- C10 core: a known device seen in a duplicate-free run ends with
exactly its old row, with only IP, vendor, last-seen and status
overwritten. -/
theorem procLoop_update_row {job : JobRow} {w : List String} {now : Nat} :
    ∀ {ds : List Device} {st st' : ProcState} {d : Device} {k : KnownDevice},
    procLoop job w now ds st = Except.ok st' →
    k ∈ st.working → k ∈ st.table → d ∈ ds → k.mac_address = d.mac →
    (ds.map Device.mac).Nodup →
    { k with ip_address := d.ip, vendor := d.vendor,
             last_seen := now, status := "active" } ∈ st'.table := by
  intro ds
  induction ds with
  | nil => intro st st' d k _ _ _ hd; simp at hd
  | cons d0 ds ih =>
    intro st st' d k h hkw hkt hd hmac hnd
    obtain ⟨st1, hp, h'⟩ := procLoop_cons_ok h
    simp only [List.map_cons, List.nodup_cons] at hnd
    rcases List.mem_cons.mp hd with rfl | hd'
    · have hrow := processOne_update_exact hp hkw hkt hmac
      refine procLoop_table_row h' hrow ?_
      intro d' hd' hh
      exact hnd.1 (List.mem_map.mpr ⟨d', hd', by simpa [hmac] using hh⟩)
    · have hne : k.mac_address ≠ d0.mac := by
        intro hh
        refine hnd.1 (List.mem_map.mpr ⟨d, hd', ?_⟩)
        rw [← hmac]
        exact hh
      exact ih h' (processOne_working_row hp hkw hne)
        (processOne_table_row hp hkt hne) hd' hmac hnd.2

/-- Second-pass lemma: when every device already has a working-map row
with the same MAC and IP, the loop succeeds, inserts nothing and emits no
notification. -/
theorem procLoop_all_updates {job : JobRow} {w : List String} {now : Nat} :
    ∀ {ds : List Device} {st : ProcState},
    (∀ d ∈ ds, ∃ k ∈ st.working, k.mac_address = d.mac ∧ k.ip_address = d.ip) →
    (st.working.map (fun k => k.mac_address)).Nodup →
    (ds.map Device.mac).Nodup →
    ∃ st', procLoop job w now ds st = Except.ok st' ∧
      st'.newDevices = st.newDevices ∧ st'.notifications = st.notifications := by
  intro ds
  induction ds with
  | nil => intro st _ _ _; exact ⟨st, rfl, rfl, rfl⟩
  | cons d ds ih =>
    intro st h1 hwnd hnd
    simp only [List.map_cons, List.nodup_cons] at hnd
    obtain ⟨k, hkw, hkmac, hkip⟩ := h1 d (List.mem_cons_self d ds)
    cases hf : st.working.find? (fun r => r.mac_address == d.mac) with
    | none =>
      have := List.find?_eq_none.mp hf k hkw
      simp [hkmac] at this
    | some ex =>
      have hexw : ex ∈ st.working := List.mem_of_find?_eq_some hf
      have hexm : ex.mac_address = d.mac := by
        have := List.find?_some hf
        simpa using this
      have hexk : ex = k :=
        List.inj_on_of_nodup_map hwnd hexw hkw (hexm.trans hkmac.symm)
      have hexip : ex.ip_address = d.ip := hexk ▸ hkip
      have hp : processOne job w now st d = Except.ok
          { st with
            table := st.table.map (fun r =>
              if r.mac_address == d.mac then
                { r with ip_address := d.ip, vendor := d.vendor,
                         last_seen := now, status := "active" }
              else r),
            working := st.working.filter (fun r => !(r.mac_address == d.mac)),
            history := st.history ++ [⟨d.mac, d.ip, d.vendor, now⟩] } := by
        simp [processOne, hf, hexip]
      have h1' : ∀ d' ∈ ds, ∃ k' ∈ st.working.filter (fun r => !(r.mac_address == d.mac)),
          k'.mac_address = d'.mac ∧ k'.ip_address = d'.ip := by
        intro d' hd'
        obtain ⟨k', hk'w, hk'mac, hk'ip⟩ := h1 d' (List.mem_cons_of_mem d hd')
        refine ⟨k', List.mem_filter.mpr ⟨hk'w, ?_⟩, hk'mac, hk'ip⟩
        have : d'.mac ≠ d.mac := by
          intro hh
          exact hnd.1 (List.mem_map.mpr ⟨d', hd', hh⟩)
        simp [hk'mac, this]
      have hwnd' : ((st.working.filter (fun r => !(r.mac_address == d.mac))).map
          (fun k => k.mac_address)).Nodup :=
        hwnd.sublist (List.Sublist.map _ (List.filter_sublist _))
      obtain ⟨st', h', hnew, hnotif⟩ := @ih
        { st with
          table := st.table.map (fun r =>
            if r.mac_address == d.mac then
              { r with ip_address := d.ip, vendor := d.vendor,
                       last_seen := now, status := "active" }
            else r),
          working := st.working.filter (fun r => !(r.mac_address == d.mac)),
          history := st.history ++ [⟨d.mac, d.ip, d.vendor, now⟩] }
        h1' hwnd' hnd.2
      refine ⟨st', ?_, by simpa using hnew, by simpa using hnotif⟩
      unfold procLoop
      rw [hp]
      exact h'

/-! ## `processDevices`: inversion and duplicate behaviour -/

theorem processDevices_ok_inv {job : JobRow} {w : List String} {now : Nat}
    {known : List KnownDevice} {devices : List Device} {r : ProcResult}
    (h : processDevices job w now known devices = Except.ok r) :
    ∃ st, procLoop job w now devices (initState known) = Except.ok st ∧
      r = { table := applyRetentionPolicy job now (markInactive st.working st.table),
            notifications := st.notifications,
            history := st.history,
            devicesFound := devices.length,
            newDevices := st.newDevices,
            warnings := st.warnings } := by
  unfold processDevices at h
  cases hl : procLoop job w now devices (initState known) with
  | error e =>
    rw [hl] at h
    exact Except.noConfusion h
  | ok st =>
    rw [hl] at h
    injection h with h
    exact ⟨st, rfl, h.symm⟩

theorem processDevices_dup_error (job : JobRow) (w : List String) (now : Nat)
    (known : List KnownDevice) (devices : List Device)
    (hdup : ¬ (devices.map Device.mac).Nodup) :
    ∃ e, processDevices job w now known devices = Except.error e := by
  cases hl : procLoop job w now devices (initState known) with
  | error e =>
    refine ⟨e, ?_⟩
    unfold processDevices
    rw [hl]
  | ok st =>
    exact absurd (procLoop_ok_nodup hl (fun k hk => hk)) hdup

/-! ## Claim C2 -/

/-- C2 counterexample: the claim says a discovered list holding the same
MAC twice processes the second occurrence as an update and the pass
completes without error.  On the code, the in-memory map is not updated
on insert, so the second occurrence is classified as new again and its
`INSERT` violates the `UNIQUE(job_id, mac_address)` constraint: the pass
throws instead of completing. -/
theorem duplicate_mac_counterexample :
    processDevices specJob [] 100 [] [dWhitelisted, dWhitelisted] =
      Except.error
        "UNIQUE constraint failed: known_devices.job_id, known_devices.mac_address" :=
  rfl

/-- C2 amended: whenever the discovered list repeats a MAC, the
reconciliation pass fails with an error (the second occurrence is treated
as a new device again and its insertion breaks per-job MAC uniqueness);
no later-wins update takes place. -/
theorem processDevices_duplicate_mac (job : JobRow) (w : List String)
    (now : Nat) (known : List KnownDevice) (devices : List Device)
    (hdup : ¬ (devices.map Device.mac).Nodup) :
    ∃ e, processDevices job w now known devices = Except.error e :=
  processDevices_dup_error job w now known devices hdup

theorem processDevices_duplicate_mac_witness :
    (¬ ([dWhitelisted, dWhitelisted].map Device.mac).Nodup) ∧
      ∃ e, processDevices specJob [] 100 [] [dWhitelisted, dWhitelisted] =
        Except.error e :=
  ⟨by decide,
    processDevices_duplicate_mac specJob [] 100 [] [dWhitelisted, dWhitelisted]
      (by decide)⟩

/-! ## Claim C3 -/

/-- C3: for a job whose retention policy is the spec's `immediate` tag
(the code string `remove`, shown as "Remove immediately" in the UI),
retention keeps a row iff it is not `inactive`: every inactive device of
the job is deleted and no other device is touched. -/
theorem retention_remove_deletes_exactly_inactive (job : JobRow) (now : Nat)
    (table : List KnownDevice) (hpol : job.retention_policy = "remove") :
    ∀ r : KnownDevice,
      r ∈ applyRetentionPolicy job now table ↔ r ∈ table ∧ r.status ≠ "inactive" := by
  intro r
  unfold applyRetentionPolicy
  rw [hpol]
  simp [List.mem_filter]

theorem retention_remove_deletes_exactly_inactive_witness :
    ((⟨"11:22:33:44:55:66", "192.168.1.11", none, false, 0, 0, "inactive"⟩ : KnownDevice) ∈
        applyRetentionPolicy jobRemove 100
          [⟨"11:22:33:44:55:66", "192.168.1.11", none, false, 0, 0, "inactive"⟩,
           ⟨"aa:bb:cc:dd:ee:ff", "192.168.1.10", none, true, 0, 0, "active"⟩] ↔
      (⟨"11:22:33:44:55:66", "192.168.1.11", none, false, 0, 0, "inactive"⟩ : KnownDevice) ∈
          [⟨"11:22:33:44:55:66", "192.168.1.11", none, false, 0, 0, "inactive"⟩,
           ⟨"aa:bb:cc:dd:ee:ff", "192.168.1.10", none, true, 0, 0, "active"⟩] ∧
        (⟨"11:22:33:44:55:66", "192.168.1.11", none, false, 0, 0, "inactive"⟩ : KnownDevice).status ≠ "inactive") :=
  retention_remove_deletes_exactly_inactive jobRemove 100
    [⟨"11:22:33:44:55:66", "192.168.1.11", none, false, 0, 0, "inactive"⟩,
     ⟨"aa:bb:cc:dd:ee:ff", "192.168.1.10", none, true, 0, 0, "active"⟩] rfl
    ⟨"11:22:33:44:55:66", "192.168.1.11", none, false, 0, 0, "inactive"⟩

/-! ## Claim C7 -/

/-- C7: the spec scenario — whitelist `{aa:bb:cc:dd:ee:ff}`, notify-new
and notify-unauthorized on, empty known set, discovered
`[(192.168.1.10, aa:bb:cc:dd:ee:ff), (192.168.1.11, 11:22:33:44:55:66)]`
— records exactly two insertions, one `information` notification for the
whitelisted MAC, one `warning` for the other, and counts
`{found: 2, new: 2, warnings: 1}`. -/
theorem processDevices_two_new_scenario :
    processDevices specJob ["aa:bb:cc:dd:ee:ff"] 100 [] [dWhitelisted, dOther] =
      Except.ok
        { table :=
            [⟨"aa:bb:cc:dd:ee:ff", "192.168.1.10", none, true, 100, 100, "active"⟩,
             ⟨"11:22:33:44:55:66", "192.168.1.11", none, false, 100, 100, "active"⟩],
          notifications :=
            [⟨"job-1", "lan", "information", newAuthorizedMsg "aa:bb:cc:dd:ee:ff",
              "aa:bb:cc:dd:ee:ff", "192.168.1.10"⟩,
             ⟨"job-1", "lan", "warning", unauthorizedMsg "11:22:33:44:55:66",
              "11:22:33:44:55:66", "192.168.1.11"⟩],
          history :=
            [⟨"aa:bb:cc:dd:ee:ff", "192.168.1.10", none, 100⟩,
             ⟨"11:22:33:44:55:66", "192.168.1.11", none, 100⟩],
          devicesFound := 2, newDevices := 2, warnings := 1 } :=
  rfl

theorem parseOutput_lowercase_valid_witness :
    isValidIP (Device.ip ⟨"192.168.1.10", "aa:bb:cc:dd:ee:ff", none⟩) = true ∧
      isValidMAC (Device.mac ⟨"192.168.1.10", "aa:bb:cc:dd:ee:ff", none⟩) = true ∧
      strToLower (Device.mac ⟨"192.168.1.10", "aa:bb:cc:dd:ee:ff", none⟩) =
        Device.mac ⟨"192.168.1.10", "aa:bb:cc:dd:ee:ff", none⟩ ∧
      Device.vendor ⟨"192.168.1.10", "aa:bb:cc:dd:ee:ff", none⟩ = none :=
  parseOutput_lowercase_valid "192.168.1.10\tAA:BB:CC:DD:EE:FF"
    ⟨"192.168.1.10", "aa:bb:cc:dd:ee:ff", none⟩ (by decide)

/-! ## Claim C5 -/

/-- C5 counterexample: the claim says the whitelist membership test is
case-insensitive.  Here the single whitelist entry equals the discovered
MAC up to letter case, notifications and both notify toggles are on, yet
the device is classified unauthorized: `whitelisted` is stored false and
a `warning` (not `information`) notification is emitted. -/
theorem whitelist_case_counterexample :
    strToLower "AA:BB:CC:DD:EE:FF" = "aa:bb:cc:dd:ee:ff" ∧
    ("AA:BB:CC:DD:EE:FF" : String) ≠ "aa:bb:cc:dd:ee:ff" ∧
    processDevices specJob ["AA:BB:CC:DD:EE:FF"] 100 [] [dWhitelisted] =
      Except.ok
        { table :=
            [⟨"aa:bb:cc:dd:ee:ff", "192.168.1.10", none, false, 100, 100, "active"⟩],
          notifications :=
            [⟨"job-1", "lan", "warning", unauthorizedMsg "aa:bb:cc:dd:ee:ff",
              "aa:bb:cc:dd:ee:ff", "192.168.1.10"⟩],
          history := [⟨"aa:bb:cc:dd:ee:ff", "192.168.1.10", none, 100⟩],
          devicesFound := 1, newDevices := 1, warnings := 1 } :=
  ⟨by decide, by decide, rfl⟩

/-- C5 amended: the membership test deciding authorized vs unauthorized
is exact string equality (`Set.has` on the stored entries) against the
scanner's lower-cased MAC — a new device raises a warning iff its MAC is
not literally contained in the whitelist; matching up to letter case is
recovered exactly when the stored entries are themselves lower-case fixed
points. -/
theorem whitelist_membership_exact (job : JobRow) (w : List String)
    (now : Nat) (known : List KnownDevice) (d : Device)
    (hen : job.notifications_enabled = true)
    (hun : job.notify_unauthorized_macs = true)
    (hnw : ∀ k ∈ known, k.mac_address ≠ d.mac) :
    (processDevices job w now known [d]).map ProcResult.warnings =
      Except.ok (if w.contains d.mac then 0 else 1) ∧
    ((∀ e ∈ w, strToLower e = e) → strToLower d.mac = d.mac →
      (w.contains d.mac = true ↔ ∃ e ∈ w, strToLower e = strToLower d.mac)) := by
  constructor
  · have hfind : (initState known).working.find? (fun k => k.mac_address == d.mac) = none :=
      List.find?_eq_none.mpr (fun k hk => by simp [hnw k hk])
    have hany : (initState known).table.any (fun k => k.mac_address == d.mac) = false := by
      rw [List.any_eq_false]
      intro k hk
      simp [hnw k hk]
    unfold processDevices procLoop processOne
    rw [hfind, hany]
    simp only [Bool.false_eq_true, if_false, procLoop]
    simp [hen, hun]
    by_cases hc : d.mac ∈ w <;> simp [hc, initState, Except.map]
  · intro hw hm
    constructor
    · intro hc
      have : d.mac ∈ w := by simpa using hc
      exact ⟨d.mac, this, rfl⟩
    · rintro ⟨e, he, heq⟩
      have : e = d.mac := by
        calc e = strToLower e := (hw e he).symm
        _ = strToLower d.mac := heq
        _ = d.mac := hm
      subst this
      simpa using he

theorem whitelist_membership_exact_witness :
    ((processDevices specJob ["aa:bb:cc:dd:ee:ff"] 100 [] [dWhitelisted]).map
        ProcResult.warnings =
      Except.ok (if ["aa:bb:cc:dd:ee:ff"].contains dWhitelisted.mac then 0 else 1)) ∧
    ((∀ e ∈ ["aa:bb:cc:dd:ee:ff"], strToLower e = e) →
      strToLower dWhitelisted.mac = dWhitelisted.mac →
      (["aa:bb:cc:dd:ee:ff"].contains dWhitelisted.mac = true ↔
        ∃ e ∈ ["aa:bb:cc:dd:ee:ff"], strToLower e = strToLower dWhitelisted.mac)) :=
  whitelist_membership_exact specJob ["aa:bb:cc:dd:ee:ff"] 100 [] dWhitelisted
    rfl rfl (by decide)

/-! ## Claim C8 -/

/-- C8: reconciling a discovered list and then reconciling the same list
again against the resulting table yields a second pass that succeeds with
zero insertions and zero notifications of any kind (in particular zero
new-device notifications): every device is handled as an update.
Hypotheses: the stored table satisfies the database's per-job MAC
uniqueness, and the first pass succeeded (a first pass that throws leaves
no resulting state to reconcile against). -/
theorem processDevices_idempotent (job : JobRow) (w : List String)
    (now now2 : Nat) (known : List KnownDevice) (devices : List Device)
    (r : ProcResult)
    (hkn : (known.map (fun k => k.mac_address)).Nodup)
    (h : processDevices job w now known devices = Except.ok r) :
    ∃ r2, processDevices job w now2 r.table devices = Except.ok r2 ∧
      r2.newDevices = 0 ∧ r2.notifications = [] := by
  obtain ⟨st, hl, hr⟩ := processDevices_ok_inv h
  have htab : r.table =
      applyRetentionPolicy job now (markInactive st.working st.table) := by
    rw [hr]
  have hsub0 : ∀ k ∈ (initState known).working, k ∈ (initState known).table :=
    fun k hk => hk
  have hndds : (devices.map Device.mac).Nodup := procLoop_ok_nodup hl hsub0
  have htn : (st.table.map (fun k => k.mac_address)).Nodup :=
    procLoop_table_nodup hl hkn
  have hmarked_nd :
      ((markInactive st.working st.table).map (fun k => k.mac_address)).Nodup := by
    rw [markInactive_macs]
    exact htn
  have hrt_nd : (r.table.map (fun k => k.mac_address)).Nodup := by
    rw [htab, applyRetentionPolicy_eq_filter]
    exact hmarked_nd.sublist (List.Sublist.map _ (List.filter_sublist _))
  have hrows : ∀ d ∈ devices, ∃ k ∈ r.table,
      k.mac_address = d.mac ∧ k.ip_address = d.ip := by
    intro d hd
    obtain ⟨⟨row, hrowt, hrm, hri, hrs⟩, hnw⟩ :=
      procLoop_all_seen hl hsub0 hndds hd
    have h1 : row ∈ markInactive st.working st.table :=
      markInactive_mem_unseen hrowt (fun k hk hh => hnw k hk (hh.trans hrm))
    have h2 : row ∈ r.table := by
      rw [htab, applyRetentionPolicy_eq_filter]
      refine List.mem_filter.mpr ⟨h1, retentionKeeps_of_not_inactive ?_⟩
      rw [hrs]
      decide
    exact ⟨row, h2, hrm, hri⟩
  have h1' : ∀ d ∈ devices, ∃ k ∈ (initState r.table).working,
      k.mac_address = d.mac ∧ k.ip_address = d.ip := hrows
  have hwnd2 : ((initState r.table).working.map (fun k => k.mac_address)).Nodup :=
    hrt_nd
  obtain ⟨st2, hl2, hnew2, hnot2⟩ := procLoop_all_updates h1' hwnd2 hndds
  refine ⟨{ table := applyRetentionPolicy job now2 (markInactive st2.working st2.table),
            notifications := st2.notifications, history := st2.history,
            devicesFound := devices.length, newDevices := st2.newDevices,
            warnings := st2.warnings }, ?_, ?_, ?_⟩
  · unfold processDevices
    rw [hl2]
  · simpa [initState] using hnew2
  · simpa [initState] using hnot2

/-! ## Claim C9 -/

/-- C9: a known device absent (by MAC) from the run's discovered list is
set to `inactive` by the pass, no emitted notification carries its MAC,
and its (now inactive) record is still in the final table whenever the
retention policy keeps it — it disappears exactly when retention deletes
it. -/
theorem unseen_device_inactive (job : JobRow) (w : List String) (now : Nat)
    (known : List KnownDevice) (devices : List Device) (r : ProcResult)
    (k : KnownDevice)
    (hkn : (known.map (fun q => q.mac_address)).Nodup)
    (hk : k ∈ known)
    (hun : ∀ d ∈ devices, d.mac ≠ k.mac_address)
    (h : processDevices job w now known devices = Except.ok r) :
    (∀ n ∈ r.notifications, n.mac_address ≠ k.mac_address) ∧
    (retentionKeeps job now { k with status := "inactive" } = true →
      { k with status := "inactive" } ∈ r.table) ∧
    (retentionKeeps job now { k with status := "inactive" } = false →
      ∀ row ∈ r.table, row.mac_address ≠ k.mac_address) := by
  obtain ⟨st, hl, hr⟩ := processDevices_ok_inv h
  have htab : r.table =
      applyRetentionPolicy job now (markInactive st.working st.table) := by
    rw [hr]
  have hnotif : r.notifications = st.notifications := by
    rw [hr]
  have hkw : k ∈ st.working := procLoop_working_row hl hk hun
  have hkt : k ∈ st.table := procLoop_table_row hl hk hun
  have hmark : { k with status := "inactive" } ∈ markInactive st.working st.table :=
    markInactive_mem_seen hkt ⟨k, hkw, rfl⟩
  refine ⟨?_, ?_, ?_⟩
  · intro n hn
    rw [hnotif] at hn
    rcases procLoop_notifs hl n hn with hn0 | ⟨d, hd, hdm⟩
    · exact absurd hn0 (by simp [initState])
    · rw [hdm]
      exact hun d hd
  · intro hkeep
    rw [htab, applyRetentionPolicy_eq_filter]
    exact List.mem_filter.mpr ⟨hmark, hkeep⟩
  · intro hkeep row hrow
    rw [htab, applyRetentionPolicy_eq_filter] at hrow
    obtain ⟨hrowm, hrowk⟩ := List.mem_filter.mp hrow
    intro hrm
    have hnd : ((markInactive st.working st.table).map (fun q => q.mac_address)).Nodup := by
      rw [markInactive_macs]
      exact procLoop_table_nodup hl hkn
    have hreq : row = { k with status := "inactive" } :=
      List.inj_on_of_nodup_map hnd hrowm hmark hrm
    rw [hreq, hkeep] at hrowk
    exact Bool.noConfusion hrowk

/-! ## Claim C10 -/

/-- C10: when an already-known device is sighted again, its stored row is
overwritten only in `ip_address`, `vendor`, `last_seen` and `status` —
`whitelisted` and `first_seen` keep their old values verbatim, so
whitelist edits made after first sight never propagate into the stored
row (the final table contains exactly the old row with only those four
fields replaced). -/
theorem update_preserves_identity_fields (job : JobRow) (w : List String)
    (now : Nat) (known : List KnownDevice) (devices : List Device)
    (r : ProcResult) (k : KnownDevice) (d : Device)
    (hk : k ∈ known) (hd : d ∈ devices) (hmac : k.mac_address = d.mac)
    (h : processDevices job w now known devices = Except.ok r) :
    { k with ip_address := d.ip, vendor := d.vendor,
             last_seen := now, status := "active" } ∈ r.table := by
  obtain ⟨st, hl, hr⟩ := processDevices_ok_inv h
  have htab : r.table =
      applyRetentionPolicy job now (markInactive st.working st.table) := by
    rw [hr]
  have hsub0 : ∀ q ∈ (initState known).working, q ∈ (initState known).table :=
    fun q hq => hq
  have hndds : (devices.map Device.mac).Nodup := procLoop_ok_nodup hl hsub0
  have hrow : { k with ip_address := d.ip, vendor := d.vendor,
                       last_seen := now, status := "active" } ∈ st.table :=
    procLoop_update_row hl hk hk hd hmac hndds
  have hnw : ∀ q ∈ st.working, q.mac_address ≠ d.mac :=
    (procLoop_all_seen hl hsub0 hndds hd).2
  have h1 : { k with ip_address := d.ip, vendor := d.vendor,
                     last_seen := now, status := "active" } ∈
      markInactive st.working st.table :=
    markInactive_mem_unseen hrow (fun q hq hh => hnw q hq (hh.trans hmac))
  rw [htab, applyRetentionPolicy_eq_filter]
  refine List.mem_filter.mpr ⟨h1, retentionKeeps_of_not_inactive ?_⟩
  show ("active" : String) ≠ "inactive"
  decide

theorem processDevices_idempotent_witness :
    ∃ r2, processDevices specJob ["aa:bb:cc:dd:ee:ff"] 200
        [⟨"aa:bb:cc:dd:ee:ff", "192.168.1.10", none, true, 100, 100, "active"⟩]
        [dWhitelisted] = Except.ok r2 ∧
      r2.newDevices = 0 ∧ r2.notifications = [] :=
  processDevices_idempotent specJob ["aa:bb:cc:dd:ee:ff"] 100 200 [] [dWhitelisted]
    { table := [⟨"aa:bb:cc:dd:ee:ff", "192.168.1.10", none, true, 100, 100, "active"⟩],
      notifications :=
        [⟨"job-1", "lan", "information", newAuthorizedMsg "aa:bb:cc:dd:ee:ff",
          "aa:bb:cc:dd:ee:ff", "192.168.1.10"⟩],
      history := [⟨"aa:bb:cc:dd:ee:ff", "192.168.1.10", none, 100⟩],
      devicesFound := 1, newDevices := 1, warnings := 0 }
    (by decide) rfl

theorem unseen_device_inactive_witness :
    (∀ n ∈ [(⟨"job-1", "lan", "warning", unauthorizedMsg "aa:bb:cc:dd:ee:ff",
          "aa:bb:cc:dd:ee:ff", "192.168.1.10"⟩ : Notification)],
        n.mac_address ≠ "11:22:33:44:55:66") ∧
    (retentionKeeps specJob 100
        ⟨"11:22:33:44:55:66", "192.168.1.11", none, false, 0, 0, "inactive"⟩ = true →
      (⟨"11:22:33:44:55:66", "192.168.1.11", none, false, 0, 0, "inactive"⟩ : KnownDevice) ∈
        [⟨"11:22:33:44:55:66", "192.168.1.11", none, false, 0, 0, "inactive"⟩,
         ⟨"aa:bb:cc:dd:ee:ff", "192.168.1.10", none, false, 100, 100, "active"⟩]) ∧
    (retentionKeeps specJob 100
        ⟨"11:22:33:44:55:66", "192.168.1.11", none, false, 0, 0, "inactive"⟩ = false →
      ∀ row ∈ [(⟨"11:22:33:44:55:66", "192.168.1.11", none, false, 0, 0, "inactive"⟩ : KnownDevice),
         ⟨"aa:bb:cc:dd:ee:ff", "192.168.1.10", none, false, 100, 100, "active"⟩],
        row.mac_address ≠ "11:22:33:44:55:66") :=
  unseen_device_inactive specJob [] 100
    [⟨"11:22:33:44:55:66", "192.168.1.11", none, false, 0, 0, "active"⟩]
    [dWhitelisted]
    { table := [⟨"11:22:33:44:55:66", "192.168.1.11", none, false, 0, 0, "inactive"⟩,
                ⟨"aa:bb:cc:dd:ee:ff", "192.168.1.10", none, false, 100, 100, "active"⟩],
      notifications :=
        [⟨"job-1", "lan", "warning", unauthorizedMsg "aa:bb:cc:dd:ee:ff",
          "aa:bb:cc:dd:ee:ff", "192.168.1.10"⟩],
      history := [⟨"aa:bb:cc:dd:ee:ff", "192.168.1.10", none, 100⟩],
      devicesFound := 1, newDevices := 1, warnings := 1 }
    ⟨"11:22:33:44:55:66", "192.168.1.11", none, false, 0, 0, "active"⟩
    (by decide) (by decide) (by decide) rfl

theorem update_preserves_identity_fields_witness :
    (⟨"11:22:33:44:55:66", "192.168.1.11", none, true, 5, 100, "active"⟩ : KnownDevice) ∈
      [(⟨"11:22:33:44:55:66", "192.168.1.11", none, true, 5, 100, "active"⟩ : KnownDevice)] :=
  update_preserves_identity_fields specJob [] 100
    [⟨"11:22:33:44:55:66", "10.0.0.5", none, true, 5, 6, "inactive"⟩]
    [dOther]
    { table := [⟨"11:22:33:44:55:66", "192.168.1.11", none, true, 5, 100, "active"⟩],
      notifications :=
        [⟨"job-1", "lan", "information",
          ipChangedMsg "11:22:33:44:55:66" "10.0.0.5" "192.168.1.11",
          "11:22:33:44:55:66", "192.168.1.11"⟩],
      history := [⟨"11:22:33:44:55:66", "192.168.1.11", none, 100⟩],
      devicesFound := 1, newDevices := 0, warnings := 0 }
    ⟨"11:22:33:44:55:66", "10.0.0.5", none, true, 5, 6, "inactive"⟩
    dOther (by decide) (by decide) rfl rfl

/-! ## Claim C1: runner lifecycle -/

theorem filter_ne_not_contains (l : List String) (a : String) :
    (l.filter (fun x => !(x == a))).contains a = false := by
  simp [List.mem_filter]

theorem jobs_set_active (jobs : List JobRow) (jobId : String) :
    ∀ j ∈ jobs.map (fun j =>
        if j.id == jobId then { j with status := "active" } else j),
      j.id = jobId → j.status = "active" := by
  intro j hj hid
  obtain ⟨j0, hj0, rfl⟩ := List.mem_map.mp hj
  by_cases h : j0.id = jobId
  · simp [h]
  · exfalso
    apply h
    simp [h] at hid

theorem finishFailure_post (st : RunnerState) (jobId runId e : String) (now : Nat) :
    isJobRunning (finishFailure st jobId runId e now) jobId = false ∧
    ∀ j ∈ (finishFailure st jobId runId e now).jobs,
      j.id = jobId → j.status = "active" :=
  ⟨filter_ne_not_contains st.runningJobs jobId, jobs_set_active st.jobs jobId⟩

theorem finishSuccess_post (st : RunnerState) (jobId runId : String)
    (res : ProcResult) (now dur : Nat) :
    isJobRunning (finishSuccess st jobId runId res now dur) jobId = false ∧
    ∀ j ∈ (finishSuccess st jobId runId res now dur).jobs,
      j.id = jobId → j.status = "active" :=
  ⟨filter_ne_not_contains st.runningJobs jobId, jobs_set_active st.jobs jobId⟩

theorem runJob_eq_of_checks (st : RunnerState) (jobId runId : String)
    (scan : Except String (List Device)) (now dur : Nat) (job : JobRow)
    (h1 : st.runningJobs.contains jobId = false)
    (hf : st.jobs.find? (fun j => j.id == jobId && j.status == "active") = some job) :
    runJob st jobId runId scan now dur =
      match scan with
      | Except.error e =>
        (finishFailure (runStart st jobId runId now) jobId runId e now, some e)
      | Except.ok devices =>
        match processDevices job
            ((st.whitelistTable.filter (fun p => p.1 == jobId)).map (fun p => p.2))
            now (getDevs (runStart st jobId runId now).devTables jobId) devices with
        | Except.error e =>
          (finishFailure (runStart st jobId runId now) jobId runId e now, some e)
        | Except.ok res =>
          (finishSuccess (runStart st jobId runId now) jobId runId res now dur, none) := by
  unfold runJob
  simp only [h1, Bool.false_eq_true, if_false, hf]

/-- C1: once `runJob` has passed the already-running and job-not-found
checks, then for every scan outcome and every reconciliation outcome —
normal completion or a thrown error — the job id is in the in-flight set
in the state right after entry (`runStart`), and at termination the
in-flight flag is cleared (`isRunning` false) and every `jobs` row with
that id is persisted back to status `active`. -/
theorem runJob_lifecycle (st : RunnerState) (jobId runId : String)
    (scan : Except String (List Device)) (now dur : Nat)
    (h1 : st.runningJobs.contains jobId = false)
    (h2 : (st.jobs.find? (fun j => j.id == jobId && j.status == "active")).isSome = true) :
    isJobRunning (runStart st jobId runId now) jobId = true ∧
    isJobRunning (runJob st jobId runId scan now dur).1 jobId = false ∧
    ∀ j ∈ (runJob st jobId runId scan now dur).1.jobs,
      j.id = jobId → j.status = "active" := by
  obtain ⟨job, hf⟩ := Option.isSome_iff_exists.mp h2
  have heq := runJob_eq_of_checks st jobId runId scan now dur job h1 hf
  have hgen : ∀ x : Except String ProcResult,
      (fun p : RunnerState × Option String =>
        isJobRunning p.1 jobId = false ∧
        ∀ j ∈ p.1.jobs, j.id = jobId → j.status = "active")
      (match x with
        | Except.error e =>
          (finishFailure (runStart st jobId runId now) jobId runId e now, some e)
        | Except.ok res =>
          (finishSuccess (runStart st jobId runId now) jobId runId res now dur,
            none)) := by
    intro x
    cases x with
    | error e => exact finishFailure_post (runStart st jobId runId now) jobId runId e now
    | ok res => exact finishSuccess_post (runStart st jobId runId now) jobId runId res now dur
  have hmain : isJobRunning (runJob st jobId runId scan now dur).1 jobId = false ∧
      ∀ j ∈ (runJob st jobId runId scan now dur).1.jobs,
        j.id = jobId → j.status = "active" := by
    rw [heq]
    cases scan with
    | error e => exact finishFailure_post (runStart st jobId runId now) jobId runId e now
    | ok devices =>
      exact hgen (processDevices job
        ((st.whitelistTable.filter (fun p => p.1 == jobId)).map (fun p => p.2))
        now (getDevs (runStart st jobId runId now).devTables jobId) devices)
  exact ⟨by simp [isJobRunning, runStart], hmain.1, hmain.2⟩

theorem runJob_lifecycle_witness :
    isJobRunning (runStart runnerSt "job-1" "r1" 5) "job-1" = true ∧
    isJobRunning (runJob runnerSt "job-1" "r1" (Except.ok []) 5 0).1 "job-1" = false ∧
    ∀ j ∈ (runJob runnerSt "job-1" "r1" (Except.ok []) 5 0).1.jobs,
      j.id = "job-1" → j.status = "active" :=
  runJob_lifecycle runnerSt "job-1" "r1" (Except.ok []) 5 0 (by decide) (by decide)

/-! ## Claim C6: scheduler tick and next-due recomputation -/

theorem tickStep_preserves {running : List String} {runOk : String → Bool}
    {now : Nat} {acc : List JobRow} {a job : JobRow}
    (ha : a ∈ acc) (hne : a.id ≠ job.id) :
    a ∈ tickStep running runOk now acc job := by
  unfold tickStep
  split
  · exact ha
  · split
    · unfold updateNextRunTime
      cases calculateNextRunTime job.schedule now with
      | none => exact ha
      | some t =>
        refine List.mem_map.mpr ⟨a, ha, ?_⟩
        simp [hne]
    · exact ha

theorem foldTick_preserves {running : List String} {runOk : String → Bool}
    {now : Nat} :
    ∀ {L : List JobRow} {acc : List JobRow} {a : JobRow},
    a ∈ acc → (∀ job ∈ L, a.id ≠ job.id) →
    a ∈ L.foldl (tickStep running runOk now) acc := by
  intro L
  induction L with
  | nil => intro acc a ha _; exact ha
  | cons job L ih =>
    intro acc a ha hne
    exact ih (tickStep_preserves ha (hne job (List.mem_cons_self job L)))
      (fun job' hj' => hne job' (List.mem_cons_of_mem job hj'))

theorem updateNextRunTime_sets {jobs : List JobRow} {a : JobRow}
    {schedule : String} {now : Nat} (ha : a ∈ jobs) :
    (match calculateNextRunTime schedule now with
      | some t => { a with next_run := some t }
      | none => a) ∈ updateNextRunTime jobs a.id schedule now := by
  unfold updateNextRunTime
  cases calculateNextRunTime schedule now with
  | none => exact ha
  | some t =>
    refine List.mem_map.mpr ⟨a, ha, ?_⟩
    simp

/-- C6 counterexample: the claim says the persisted next-due timestamp
after a dispatch equals the time of recomputation plus the tag's fixed
interval.  For the daily tag at noon of day 0 (43200000 ms) the scheduler
persists the next midnight, 86400000, not `now + 24h`. -/
theorem scheduler_interval_counterexample :
    checkScheduledJobs [schedJob] [] (fun _ => true) 43200000 =
      [{ schedJob with next_run := some 86400000 }] ∧
    (86400000 : Nat) ≠ 43200000 + 86400000 := by
  constructor
  · rfl
  · decide

/-- C6 amended: on a tick, a due, not-in-flight job whose awaited
dispatch returned normally gets its next-due timestamp recomputed from
the schedule tag — `now + interval` for the hourly tags but the next UTC
midnight (respectively the midnight seven days ahead) for `24h` and `7d`
— while every other job row, including a dispatched job whose run threw,
is left unchanged (failed dispatches do not update `next_run`). -/
theorem checkScheduledJobs_next_run (jobs : List JobRow)
    (running : List String) (runOk : String → Bool) (now : Nat) (j : JobRow)
    (hnd : (jobs.map (fun q => q.id)).Nodup) (hj : j ∈ jobs) :
    (¬ dispatched running runOk now j →
      j ∈ checkScheduledJobs jobs running runOk now) ∧
    (dispatched running runOk now j →
      (match calculateNextRunTime j.schedule now with
        | some t => { j with next_run := some t }
        | none => j) ∈ checkScheduledJobs jobs running runOk now) ∧
    calculateNextRunTime "1h" now = some (now + hourMs) ∧
    calculateNextRunTime "6h" now = some (now + 6 * hourMs) ∧
    calculateNextRunTime "12h" now = some (now + 12 * hourMs) ∧
    calculateNextRunTime "24h" now = some ((now / dayMs + 1) * dayMs) ∧
    calculateNextRunTime "7d" now = some ((now / dayMs + 7) * dayMs) := by
  have hndL : ((jobs.filter (isDue now)).map (fun q => q.id)).Nodup :=
    hnd.sublist (List.Sublist.map _ (List.filter_sublist _))
  have hid_inj := List.inj_on_of_nodup_map hnd
  refine ⟨?_, ?_, rfl, rfl, rfl, rfl, rfl⟩
  · intro hnact
    unfold checkScheduledJobs
    by_cases hdue : isDue now j = true
    · -- in the due list but skipped by the loop body
      have hjL : j ∈ jobs.filter (isDue now) := List.mem_filter.mpr ⟨hj, hdue⟩
      obtain ⟨L1, L2, hL⟩ := List.append_of_mem hjL
      rw [hL] at hndL ⊢
      have hmid := List.nodup_middle.mp (by simpa using hndL)
      rw [List.nodup_cons] at hmid
      have hnotin := hmid.1
      rw [← List.map_append, List.mem_map] at hnotin
      have hL1 : ∀ job' ∈ L1, j.id ≠ job'.id := fun job' hj' hh =>
        hnotin ⟨job', List.mem_append_left _ hj', hh.symm⟩
      have hL2 : ∀ job' ∈ L2, j.id ≠ job'.id := fun job' hj' hh =>
        hnotin ⟨job', List.mem_append_right _ hj', hh.symm⟩
      rw [List.foldl_append]
      have hacc1 : j ∈ L1.foldl (tickStep running runOk now) jobs :=
        foldTick_preserves hj hL1
      have hstep : j ∈ tickStep running runOk now
          (L1.foldl (tickStep running runOk now) jobs) j := by
        unfold tickStep
        split
        · exact hacc1
        · next hrun =>
          split
          · next hok =>
            exfalso
            exact hnact ⟨hdue, by simpa using hrun, hok⟩
          · exact hacc1
      simpa using foldTick_preserves hstep hL2
    · -- not due: no loop iteration touches this id
      have hne : ∀ job' ∈ jobs.filter (isDue now), j.id ≠ job'.id := by
        intro job' hj' hh
        have hj'j : job' = j :=
          hid_inj (List.mem_filter.mp hj').1 hj hh.symm
        rw [hj'j] at hj'
        exact hdue (List.mem_filter.mp hj').2
      exact foldTick_preserves hj hne
  · rintro ⟨hdue, hrun, hok⟩
    unfold checkScheduledJobs
    have hjL : j ∈ jobs.filter (isDue now) := List.mem_filter.mpr ⟨hj, hdue⟩
    obtain ⟨L1, L2, hL⟩ := List.append_of_mem hjL
    rw [hL] at hndL ⊢
    have hmid := List.nodup_middle.mp (by simpa using hndL)
    rw [List.nodup_cons] at hmid
    have hnotin := hmid.1
    rw [← List.map_append, List.mem_map] at hnotin
    have hL1 : ∀ job' ∈ L1, j.id ≠ job'.id := fun job' hj' hh =>
      hnotin ⟨job', List.mem_append_left _ hj', hh.symm⟩
    have hL2 : ∀ job' ∈ L2, j.id ≠ job'.id := fun job' hj' hh =>
      hnotin ⟨job', List.mem_append_right _ hj', hh.symm⟩
    rw [List.foldl_append]
    have hacc1 : j ∈ L1.foldl (tickStep running runOk now) jobs :=
      foldTick_preserves hj hL1
    have hstep : (match calculateNextRunTime j.schedule now with
        | some t => { j with next_run := some t }
        | none => j) ∈ tickStep running runOk now
          (L1.foldl (tickStep running runOk now) jobs) j := by
      unfold tickStep
      rw [hrun]
      simp only [Bool.false_eq_true, if_false, hok, if_true]
      exact updateNextRunTime_sets hacc1
    have htid : (match calculateNextRunTime j.schedule now with
        | some t => { j with next_run := some t }
        | none => j).id = j.id := by
      cases calculateNextRunTime j.schedule now <;> rfl
    rw [List.foldl_cons]
    refine foldTick_preserves hstep ?_
    intro job' hj'
    rw [htid]
    exact hL2 job' hj'

theorem checkScheduledJobs_next_run_witness :
    (¬ dispatched [] (fun _ => true) 43200000 schedJob →
      schedJob ∈ checkScheduledJobs [schedJob] [] (fun _ => true) 43200000) ∧
    (dispatched [] (fun _ => true) 43200000 schedJob →
      { schedJob with next_run := some 86400000 } ∈
        checkScheduledJobs [schedJob] [] (fun _ => true) 43200000) ∧
    calculateNextRunTime "1h" 43200000 = some (43200000 + hourMs) ∧
    calculateNextRunTime "6h" 43200000 = some (43200000 + 6 * hourMs) ∧
    calculateNextRunTime "12h" 43200000 = some (43200000 + 12 * hourMs) ∧
    calculateNextRunTime "24h" 43200000 = some ((43200000 / dayMs + 1) * dayMs) ∧
    calculateNextRunTime "7d" 43200000 = some ((43200000 / dayMs + 7) * dayMs) :=
  checkScheduledJobs_next_run [schedJob] [] (fun _ => true) 43200000 schedJob
    (by decide) (by decide)

end ArpMonit
